import Mathlib

set_option maxRecDepth 4096

/-!
Verification of the OAuth/PKCE authorization subsystem of the ii-client
repository.  The definitions below are shallow embeddings of the functions in
src/unnamed/part_002 (the local OAuth server), src/src/main/lib/oauth-utils.ts,
src/src/main/lib/trpc/routers/claude-code.ts and the credential resolver
(claude-token).  Bytes are modelled as natural numbers below 256, strings of
the host language as Lean strings, and the Node primitives the code calls
(crypto.createHash("sha256"), Buffer base64 encoding) are implemented
executably so that every theorem can be evaluated on concrete inputs.
-/

/-! ## SHA-256 (the Node crypto.createHash("sha256") primitive) -/

/-- Truncate to a 32-bit word, as every JS/Node hash step works on uint32. -/
def w32 (n : Nat) : Nat := n % 4294967296

/-- Truncate to a byte. -/
def w8 (n : Nat) : Nat := n % 256

/-- 32-bit right rotation. -/
def rotr32 (k x : Nat) : Nat := w32 ((x >>> k) ||| (x <<< (32 - k)))

def bsig0 (x : Nat) : Nat := (rotr32 2 x) ^^^ (rotr32 13 x) ^^^ (rotr32 22 x)

def bsig1 (x : Nat) : Nat := (rotr32 6 x) ^^^ (rotr32 11 x) ^^^ (rotr32 25 x)

def ssig0 (x : Nat) : Nat := (rotr32 7 x) ^^^ (rotr32 18 x) ^^^ (x >>> 3)

def ssig1 (x : Nat) : Nat := (rotr32 17 x) ^^^ (rotr32 19 x) ^^^ (x >>> 10)

def chOp (x y z : Nat) : Nat := (x &&& y) ^^^ ((x ^^^ 4294967295) &&& z)

def majOp (x y z : Nat) : Nat := (x &&& y) ^^^ (x &&& z) ^^^ (y &&& z)

/-- The 64 SHA-256 round constants (FIPS 180-4), in decimal. -/
def SHA256K : List Nat :=
  [1116352408, 1899447441, 3049323471, 3921009573, 961987163,
   1508970993, 2453635748, 2870763221, 3624381080, 310598401,
   607225278, 1426881987, 1925078388, 2162078206, 2614888103,
   3248222580, 3835390401, 4022224774, 264347078, 604807628,
   770255983, 1249150122, 1555081692, 1996064986, 2554220882,
   2821834349, 2952996808, 3210313671, 3336571891, 3584528711,
   113926993, 338241895, 666307205, 773529912, 1294757372,
   1396182291, 1695183700, 1986661051, 2177026350, 2456956037,
   2730485921, 2820302411, 3259730800, 3345764771, 3516065817,
   3600352804, 4094571909, 275423344, 430227734, 506948616,
   659060556, 883997877, 958139571, 1322822218, 1537002063,
   1747873779, 1955562222, 2024104815, 2227730452, 2361852424,
   2428436474, 2756734187, 3204031479, 3329325298]

/-- The SHA-256 initial hash value (FIPS 180-4), in decimal. -/
def SHA256H0 : List Nat :=
  [1779033703, 3144134277, 1013904242,
   2773480762, 1359893119, 2600822924,
   528734635, 1541459225]

/-- Pad a byte message: append 0x80, zeros to 56 mod 64, and the 64-bit
big-endian bit length. -/
def sha256Pad (msg : List Nat) : List Nat :=
  let len := msg.length
  let zeros := (119 - (len % 64)) % 64
  let bitLen := len * 8
  msg ++ [128] ++ List.replicate zeros 0 ++
    [w8 (bitLen >>> 56), w8 (bitLen >>> 48), w8 (bitLen >>> 40),
     w8 (bitLen >>> 32), w8 (bitLen >>> 24), w8 (bitLen >>> 16),
     w8 (bitLen >>> 8), w8 bitLen]

/-- Group bytes into big-endian 32-bit words. -/
def bytesToWords : List Nat → List Nat
  | b1 :: b2 :: b3 :: b4 :: rest =>
      (b1 * 16777216 + b2 * 65536 + b3 * 256 + b4) :: bytesToWords rest
  | _ => []

/-- Extend a 16-word block by one scheduled word per step of fuel. -/
def extendWords (ws : List Nat) : Nat → List Nat
  | 0 => ws
  | fuel + 1 =>
      let n := ws.length
      let next := w32 (ssig1 (ws.getD (n - 2) 0) + ws.getD (n - 7) 0 +
        ssig0 (ws.getD (n - 15) 0) + ws.getD (n - 16) 0)
      extendWords (ws ++ [next]) fuel

/-- One SHA-256 compression round on the state [a,b,c,d,e,f,g,h]. -/
def compressStep (k w : Nat) (st : List Nat) : List Nat :=
  match st with
  | [a, b, c, d, e, f, g, h] =>
      let t1 := w32 (h + bsig1 e + chOp e f g + k + w)
      let t2 := w32 (bsig0 a + majOp a b c)
      [w32 (t1 + t2), a, b, c, w32 (d + t1), e, f, g]
  | other => other

/-- Process one 16-word block against the running hash. -/
def processBlock (hs : List Nat) (block : List Nat) : List Nat :=
  let ws := extendWords block 48
  let st := (SHA256K.zip ws).foldl (fun st p => compressStep p.1 p.2 st) hs
  List.zipWith (fun a b => w32 (a + b)) hs st

/-- Fold the compression function over consecutive 16-word blocks; the fuel
is the number of blocks. -/
def foldBlocks (hs : List Nat) (ws : List Nat) : Nat → List Nat
  | 0 => hs
  | fuel + 1 => foldBlocks (processBlock hs (ws.take 16)) (ws.drop 16) fuel

/-- SHA-256 of a byte list, as a 32-byte list. -/
def sha256 (msg : List Nat) : List Nat :=
  let ws := bytesToWords (sha256Pad msg)
  let hs := foldBlocks SHA256H0 ws (ws.length / 16)
  hs.foldr (fun w acc =>
    w8 (w >>> 24) :: w8 (w >>> 16) :: w8 (w >>> 8) :: w8 w :: acc) []

/-! ## Base64 and base64url (Node Buffer.toString("base64"/"base64url")) -/

/-- The '=' padding character of standard base64. -/
def padChar : Char := Char.ofNat 61

/-- Character for a sextet in the standard base64 alphabet. -/
def base64Char (n : Nat) : Char :=
  if n < 26 then Char.ofNat (65 + n)
  else if n < 52 then Char.ofNat (71 + n)
  else if n < 62 then Char.ofNat (n - 4)
  else if n = 62 then Char.ofNat 43
  else Char.ofNat 47

/-- Character for a sextet in the base64url alphabet (RFC 4648 URL-safe). -/
def base64UrlChar (n : Nat) : Char :=
  if n < 26 then Char.ofNat (65 + n)
  else if n < 52 then Char.ofNat (71 + n)
  else if n < 62 then Char.ofNat (n - 4)
  else if n = 62 then Char.ofNat 45
  else Char.ofNat 95

/-- Sextet value of a standard base64 character. -/
def base64CharVal (c : Char) : Nat :=
  let n := c.toNat
  if 65 ≤ n ∧ n ≤ 90 then n - 65
  else if 97 ≤ n ∧ n ≤ 122 then n - 71
  else if 48 ≤ n ∧ n ≤ 57 then n + 4
  else if n = 43 then 62
  else 63

/-- Standard base64 encoding of a byte list, with '=' padding, as Node's
Buffer.prototype.toString("base64") produces. -/
def base64EncodeCore : List Nat → List Char
  | [] => []
  | [b1] =>
      [base64Char (b1 / 4), base64Char ((b1 % 4) * 16), padChar, padChar]
  | [b1, b2] =>
      [base64Char (b1 / 4), base64Char ((b1 % 4) * 16 + b2 / 16),
       base64Char ((b2 % 16) * 4), padChar]
  | b1 :: b2 :: b3 :: rest =>
      base64Char (b1 / 4) :: base64Char ((b1 % 4) * 16 + b2 / 16) ::
      base64Char ((b2 % 16) * 4 + b3 / 64) :: base64Char (b3 % 64) ::
      base64EncodeCore rest

/-- Standard base64 decoding, inverse of base64EncodeCore on well-formed
input, as Buffer.from(s, "base64") performs. -/
def base64DecodeCore : List Char → List Nat
  | c1 :: c2 :: c3 :: c4 :: rest =>
      let n1 := base64CharVal c1
      let n2 := base64CharVal c2
      if c3 = padChar then [n1 * 4 + n2 / 16]
      else
        let n3 := base64CharVal c3
        if c4 = padChar then [n1 * 4 + n2 / 16, (n2 % 16) * 16 + n3 / 4]
        else (n1 * 4 + n2 / 16) :: ((n2 % 16) * 16 + n3 / 4) ::
          ((n3 % 4) * 64 + base64CharVal c4) :: base64DecodeCore rest
  | _ => []

def base64Encode (l : List Nat) : String := String.mk (base64EncodeCore l)

def base64Decode (s : String) : List Nat := base64DecodeCore s.toList

/-- base64url encoding of a byte list, without padding, as Node's
Buffer.prototype.toString("base64url") produces. -/
def base64UrlEncodeCore : List Nat → List Char
  | [] => []
  | [b1] =>
      [base64UrlChar (b1 / 4), base64UrlChar ((b1 % 4) * 16)]
  | [b1, b2] =>
      [base64UrlChar (b1 / 4), base64UrlChar ((b1 % 4) * 16 + b2 / 16),
       base64UrlChar ((b2 % 16) * 4)]
  | b1 :: b2 :: b3 :: rest =>
      base64UrlChar (b1 / 4) :: base64UrlChar ((b1 % 4) * 16 + b2 / 16) ::
      base64UrlChar ((b2 % 16) * 4 + b3 / 64) :: base64UrlChar (b3 % 64) ::
      base64UrlEncodeCore rest

def base64UrlEncode (l : List Nat) : String := String.mk (base64UrlEncodeCore l)

/-- UTF-8 code units of a string; on the ASCII strings produced by base64url
encoding these are exactly the character codes, which is what
crypto.Hash.prototype.update receives for such a string. -/
def strBytes (s : String) : List Nat := s.toList.map Char.toNat

/-! ## oauth-utils.ts: endpoints, client id, token requests, expiry -/

def OAUTH_CLIENT_ID : String := "9d1c250a-e61b-44d9-88ed-5944d1962f5e"

def OAUTH_SCOPES : String := "org:create_api_key user:profile user:inference"

structure OAuthTokens where
  accessToken : String
  refreshToken : Option String
  expiresAt : Option Nat
deriving DecidableEq, Repr

/-- The form fields exchangeAuthorizationCode sends to the token endpoint. -/
def exchangeAuthorizationCodeBody (code redirectUri codeVerifier : String) :
    List (String × String) :=
  [("grant_type", "authorization_code"),
   ("code", code),
   ("client_id", OAUTH_CLIENT_ID),
   ("redirect_uri", redirectUri),
   ("code_verifier", codeVerifier)]

/-- The form fields refreshOAuthToken sends to the token endpoint; the source
hardcodes the literal client id "claude-desktop" here. -/
def refreshOAuthTokenBody (refreshToken : String) : List (String × String) :=
  [("grant_type", "refresh_token"),
   ("refresh_token", refreshToken),
   ("client_id", "claude-desktop")]

/-- isTokenExpired from oauth-utils.ts.  The source reads
"if (!expiresAt) return false; return Date.now() + bufferMs >= expiresAt"
with bufferMs = 5 * 60 * 1000; JS falsiness makes the guard also absorb the
timestamp 0.  Time is passed explicitly as now. -/
def isTokenExpired (now : Nat) (expiresAt : Option Nat) : Bool :=
  match expiresAt with
  | none => false
  | some e => if e = 0 then false else decide (now + 5 * 60 * 1000 ≥ e)

/-! ## oauth-server (src/unnamed/part_002) -/

structure PKCEChallenge where
  verifier : String
  challenge : String
deriving DecidableEq, Repr

/-- generatePKCE, with the 32 bytes drawn by crypto.randomBytes(32) passed in
explicitly.  The source hashes the verifier string itself (the base64url
text), exactly as crypto.createHash("sha256").update(verifier) does. -/
def generatePKCE (randomBytes : List Nat) : PKCEChallenge :=
  let verifier := base64UrlEncode randomBytes
  let challenge := base64UrlEncode (sha256 (strBytes verifier))
  { verifier := verifier, challenge := challenge }

/-- The module-level oauthState record.  The server is identified by the port
it was created for; resolveCallback/rejectCallback record whether a
resolver/rejecter is registered (non-null). -/
structure OAuthState where
  server : Option Nat
  port : Option Nat
  pkce : Option PKCEChallenge
  state : Option String
  resolveCallback : Bool
  rejectCallback : Bool
  timeoutId : Option Nat
deriving DecidableEq, Repr

/-- The state cleanup() leaves behind: timer cleared, server closed, every
field nulled. -/
def cleanupState : OAuthState :=
  { server := none, port := none, pkce := none, state := none,
    resolveCallback := false, rejectCallback := false, timeoutId := none }

/-- Events of one startOAuthFlow run, in program order. -/
inductive FlowEvent where
  | clearedTimer (id : Nat)
  | closedServer (port : Nat)
  | probed (port : Nat) (ok : Bool)
  | bound (port : Nat)
  | timerArmed (timeoutMs : Nat)
  | browserOpened
  | settledReject (message : String)
deriving DecidableEq, Repr

/-- The teardown actions cleanup() performs on a given state: clearTimeout if
a timer is armed, server.close() if a server exists. -/
def cleanupTrace (s : OAuthState) : List FlowEvent :=
  (match s.timeoutId with
   | some t => [FlowEvent.clearedTimer t]
   | none => []) ++
  (match s.server with
   | some p => [FlowEvent.closedServer p]
   | none => [])

/-- The port range of OAUTH_CONFIG. -/
def OAUTH_PORT_MIN : Nat := 21300

def OAUTH_PORT_MAX : Nat := 21399

/-- The loop body of findAvailablePort: try ports one by one, fuel counts the
remaining range. checkPortAvailable is abstracted by avail, true exactly when
a transient loopback listener binds on the port without error. -/
def findAvailablePortGo (avail : Nat → Bool) : Nat → Nat → Option Nat
  | _, 0 => none
  | port, fuel + 1 =>
      if avail port then some port else findAvailablePortGo avail (port + 1) fuel

/-- findAvailablePort(min, max); none models the thrown
"No available ports in range min-max" error. -/
def findAvailablePort (lo hi : Nat) (avail : Nat → Bool) : Option Nat :=
  findAvailablePortGo avail lo (hi + 1 - lo)

/-- The probe attempts the loop makes, in order, stopping at the first
success. -/
def probeTrace (avail : Nat → Bool) : Nat → Nat → List FlowEvent
  | _, 0 => []
  | port, fuel + 1 =>
      if avail port then [FlowEvent.probed port true]
      else FlowEvent.probed port false :: probeTrace avail (port + 1) fuel

/-- A call to exchangeAuthorizationCode as issued by exchangeCodeForTokens. -/
structure ExchangeCall where
  code : String
  redirectUri : String
  codeVerifier : String
deriving DecidableEq, Repr

def redirectUriFor (port : Nat) : String :=
  "http://localhost:" ++ toString port ++ "/callback"

/-- exchangeCodeForTokens: throws "OAuth state not initialized" when pkce or
port is missing (JS falsiness: port 0 also counts as missing), otherwise
issues the HTTP exchange, abstracted by ex.  Returns the outcome together
with the list of exchange calls issued. -/
def exchangeCodeForTokens (s : OAuthState)
    (ex : ExchangeCall → Except String OAuthTokens) (code : String) :
    Except String OAuthTokens × List ExchangeCall :=
  match s.pkce, s.port with
  | some pkce, some port =>
      if port = 0 then (Except.error "OAuth state not initialized", [])
      else
        let call : ExchangeCall :=
          { code := code, redirectUri := redirectUriFor port,
            codeVerifier := pkce.verifier }
        (ex call, [call])
  | _, _ => (Except.error "OAuth state not initialized", [])

/-- The query parameters of a GET /callback request. -/
structure CallbackQuery where
  code : Option String
  state : Option String
  error : Option String
  errorDescription : Option String
deriving DecidableEq, Repr

/-- JS truthiness of a string | null query parameter. -/
def truthy : Option String → Bool
  | none => false
  | some s => decide (s ≠ "")

/-- JS a || b for a : string | null. -/
def jsOr (a : Option String) (b : String) : String :=
  match a with
  | some s => if s = "" then b else s
  | none => b

/-- The CSRF guard "!state || state !== oauthState.state". -/
def stateInvalid (qstate sstate : Option String) : Bool :=
  match qstate with
  | none => true
  | some st => decide (st = "") || decide (sstate ≠ some st)

/-- The code massaging "code.includes('#') ? code.split('#')[0] : code". -/
def extractAuthCode (code : String) : String :=
  if code.toList.contains (Char.ofNat 35) then
    String.mk (code.toList.takeWhile (fun c => c ≠ Char.ofNat 35))
  else code

/-- Which branch of handleCallback ran. -/
inductive CallbackBranch where
  | providerError
  | csrfMismatch
  | missingCode
  | exchangeSuccess
  | exchangeFailure
deriving DecidableEq, Repr

/-- The HTML page written on the response. -/
inductive PageResponse where
  | successPage
  | errorPage (message : String)
deriving DecidableEq, Repr

/-- A settlement actually delivered to the in-flight promise. -/
inductive Settle where
  | resolved (tokens : OAuthTokens)
  | rejected (message : String)
deriving DecidableEq, Repr

structure CallbackResult where
  branch : CallbackBranch
  response : PageResponse
  exchangeCalls : List ExchangeCall
  settles : List Settle
  final : OAuthState
deriving DecidableEq, Repr

/-- handleCallback from the oauth-server module.  Every branch runs cleanup()
first and only then reads oauthState.resolveCallback / rejectCallback from
the same module-level record, so each read sees the nulled field; the settles
list records the settlements the branch actually delivers through those
reads. -/
def handleCallback (s : OAuthState) (q : CallbackQuery)
    (ex : ExchangeCall → Except String OAuthTokens) : CallbackResult :=
  if truthy q.error then
    let message := jsOr q.errorDescription (q.error.getD "")
    let s1 := cleanupState
    { branch := CallbackBranch.providerError,
      response := PageResponse.errorPage message,
      exchangeCalls := [],
      settles := if s1.rejectCallback then [Settle.rejected message] else [],
      final := s1 }
  else if stateInvalid q.state s.state then
    let message := "Invalid state parameter - possible CSRF attack"
    let s1 := cleanupState
    { branch := CallbackBranch.csrfMismatch,
      response := PageResponse.errorPage message,
      exchangeCalls := [],
      settles := if s1.rejectCallback then [Settle.rejected message] else [],
      final := s1 }
  else if truthy q.code = false then
    let message := "Missing authorization code"
    let s1 := cleanupState
    { branch := CallbackBranch.missingCode,
      response := PageResponse.errorPage message,
      exchangeCalls := [],
      settles := if s1.rejectCallback then [Settle.rejected message] else [],
      final := s1 }
  else
    let authCode := extractAuthCode (q.code.getD "")
    match exchangeCodeForTokens s ex authCode with
    | (Except.ok tokens, calls) =>
        let s1 := cleanupState
        { branch := CallbackBranch.exchangeSuccess,
          response := PageResponse.successPage,
          exchangeCalls := calls,
          settles := if s1.resolveCallback then [Settle.resolved tokens] else [],
          final := s1 }
    | (Except.error msg, calls) =>
        let s1 := cleanupState
        { branch := CallbackBranch.exchangeFailure,
          response := PageResponse.errorPage msg,
          exchangeCalls := calls,
          settles := if s1.rejectCallback then [Settle.rejected msg] else [],
          final := s1 }

/-- cancelOAuthFlow: here the rejecter is read before cleanup() runs, so a
pending flow really is rejected. -/
def cancelOAuthFlow (s : OAuthState) : List Settle × OAuthState :=
  (if s.rejectCallback then [Settle.rejected "OAuth flow cancelled"] else [],
   cleanupState)

/-- isOAuthFlowInProgress: a server is currently owned. -/
def isOAuthFlowInProgress (s : OAuthState) : Bool :=
  decide (s.server ≠ none)

def noPortsMessage (lo hi : Nat) : String :=
  "No available ports in range " ++ toString lo ++ "-" ++ toString hi

structure FlowStart where
  events : List FlowEvent
  final : OAuthState
deriving DecidableEq, Repr

/-- startOAuthFlow up to the point where it awaits the callback: cleanup of
any existing flow, port allocation, state installation, server bind, timeout
arming and browser launch, with pkce and the CSRF state drawn from
crypto.randomBytes passed in explicitly.  When no port is free the thrown
error is caught, cleanup() runs again (a no-op: the state is already
cleared) and the promise is rejected through the closure's reject, which is
a real settlement. -/
def startOAuthFlow (s : OAuthState) (avail : Nat → Bool)
    (pkce : PKCEChallenge) (csrf : String) (timeoutMs : Nat) : FlowStart :=
  let pre := cleanupTrace s
  let probes := probeTrace avail OAUTH_PORT_MIN (OAUTH_PORT_MAX + 1 - OAUTH_PORT_MIN)
  match findAvailablePort OAUTH_PORT_MIN OAUTH_PORT_MAX avail with
  | none =>
      { events := pre ++ probes ++
          [FlowEvent.settledReject (noPortsMessage OAUTH_PORT_MIN OAUTH_PORT_MAX)],
        final := cleanupState }
  | some port =>
      { events := pre ++ probes ++
          [FlowEvent.bound port, FlowEvent.timerArmed timeoutMs,
           FlowEvent.browserOpened],
        final := { server := some port, port := some port, pkce := some pkce,
                   state := some csrf, resolveCallback := true,
                   rejectCallback := true, timeoutId := some 1 } }

/-! ## claude-code.ts router: encrypted credential store -/

/-- A row of the claudeCodeCredentials table. -/
structure StoredCredentialRecord where
  id : String
  oauthToken : String
  connectedAt : Nat
deriving DecidableEq, Repr

/-- encryptToken: when safeStorage encryption is unavailable the token bytes
are base64-encoded directly (the logged fallback); otherwise the
safeStorage.encryptString ciphertext (abstracted by encS on the token's
bytes) is base64-encoded.  Token strings are modelled by their byte lists. -/
def encryptToken (encAvail : Bool) (encS : List Nat → List Nat)
    (token : List Nat) : String :=
  if encAvail = false then base64Encode token
  else base64Encode (encS token)

/-- decryptToken: the stored string is base64-decoded, then either taken as
the token bytes (fallback) or passed through safeStorage.decryptString
(abstracted by decS). -/
def decryptToken (encAvail : Bool) (decS : List Nat → List Nat)
    (encrypted : String) : List Nat :=
  if encAvail = false then base64Decode encrypted
  else decS (base64Decode encrypted)

/-- The drizzle delete().where(id = "default") step. -/
def deleteDefault (db : List StoredCredentialRecord) :
    List StoredCredentialRecord :=
  db.filter (fun r => r.id ≠ "default")

/-- storeOAuthToken: encrypt, delete the fixed-identity row, insert the new
one. -/
def storeOAuthToken (encAvail : Bool) (encS : List Nat → List Nat)
    (now : Nat) (db : List StoredCredentialRecord) (token : List Nat) :
    List StoredCredentialRecord :=
  let encryptedToken := encryptToken encAvail encS token
  deleteDefault db ++
    [{ id := "default", oauthToken := encryptedToken, connectedAt := now }]

/-- The select().where(id = "default").get() step. -/
def selectDefault (db : List StoredCredentialRecord) :
    Option StoredCredentialRecord :=
  db.find? (fun r => r.id = "default")

/-- getToken: "Not connected" (none) when there is no row or the stored
token is the empty string (JS falsiness of cred?.oauthToken), otherwise the
decrypted token. -/
def getToken (encAvail : Bool) (decS : List Nat → List Nat)
    (db : List StoredCredentialRecord) : Option (List Nat) :=
  match selectDefault db with
  | none => none
  | some cred =>
      if cred.oauthToken = "" then none
      else some (decryptToken encAvail decS cred.oauthToken)

/-! ## claude-token: resolver for pre-existing system credentials -/

inductive Platform where
  | darwin
  | win32
  | linux
  | other
deriving DecidableEq, Repr

structure ClaudeOAuthCredential where
  accessToken : String
  refreshToken : Option String
  expiresAt : Option Nat
  scopes : Option (List String)
deriving DecidableEq, Repr

structure ClaudeCredentials where
  claudeAiOauth : Option ClaudeOAuthCredential
deriving DecidableEq, Repr

/-- The outside world the resolver consults.  Each Except models an operation
that can throw (execSync for the three secret-store CLIs, readFileSync for
the credentials file, JSON.parse for every parse). -/
structure CredEnv where
  platform : Platform
  macKeychain : Except Unit String
  secretTool : Except Unit String
  passStore : Except Unit String
  credFileExists : Bool
  credFileRead : Except Unit String
  jsonParse : String → Except Unit ClaudeCredentials

/-- readFromMacOSKeychain: the try block covers the security CLI call and the
JSON parse; any throw is swallowed into the final return null. -/
def readFromMacOSKeychain (env : CredEnv) : Option ClaudeOAuthCredential :=
  match env.macKeychain with
  | Except.error _ => none
  | Except.ok raw =>
      let result := raw.trim
      if result = "" then none
      else
        match env.jsonParse result with
        | Except.error _ => none
        | Except.ok credentials => credentials.claudeAiOauth

/-- readFromWindowsCredentialManager: reads the ~/.claude/.credentials.json
file Claude Code uses on Windows; every failure is swallowed. -/
def readFromWindowsCredentialManager (env : CredEnv) :
    Option ClaudeOAuthCredential :=
  if env.credFileExists then
    match env.credFileRead with
    | Except.error _ => none
    | Except.ok content =>
        match env.jsonParse content with
        | Except.error _ => none
        | Except.ok credentials => credentials.claudeAiOauth
  else none

/-- readFromLinuxSecretService: secret-tool first, then the pass
password-store fallback; each attempt's failures are swallowed by its own
catch. -/
def readFromLinuxSecretService (env : CredEnv) :
    Option ClaudeOAuthCredential :=
  let fromSecretTool :=
    match env.secretTool with
    | Except.error _ => none
    | Except.ok raw =>
        let result := raw.trim
        if result = "" then none
        else
          match env.jsonParse result with
          | Except.error _ => none
          | Except.ok credentials => credentials.claudeAiOauth
  match fromSecretTool with
  | some c => some c
  | none =>
      match env.passStore with
      | Except.error _ => none
      | Except.ok raw =>
          let result := raw.trim
          if result = "" then none
          else
            match env.jsonParse result with
            | Except.error _ => none
            | Except.ok credentials => credentials.claudeAiOauth

/-- readFromKeychain: runtime platform dispatch. -/
def readFromKeychain (env : CredEnv) : Option ClaudeOAuthCredential :=
  match env.platform with
  | Platform.darwin => readFromMacOSKeychain env
  | Platform.win32 => readFromWindowsCredentialManager env
  | Platform.linux => readFromLinuxSecretService env
  | Platform.other => none

/-- readFromCredentialsFile: the ~/.claude/.credentials.json fallback. -/
def readFromCredentialsFile (env : CredEnv) : Option ClaudeOAuthCredential :=
  if env.credFileExists then
    match env.credFileRead with
    | Except.error _ => none
    | Except.ok content =>
        match env.jsonParse content with
        | Except.error _ => none
        | Except.ok credentials => credentials.claudeAiOauth
  else none

/-- getExistingClaudeCredentials: keychain first, credentials file second. -/
def getExistingClaudeCredentials (env : CredEnv) :
    Option ClaudeOAuthCredential :=
  match readFromKeychain env with
  | some c => some c
  | none => readFromCredentialsFile env

/-- The resolver's contract: its value is null or a credential extracted from
a string the JSON parser accepted. -/
def ParsedOrNone (env : CredEnv) (r : Option ClaudeOAuthCredential) : Prop :=
  r = none ∨
    ∃ c s creds, r = some c ∧ env.jsonParse s = Except.ok creds ∧
      creds.claudeAiOauth = some c

/-! ## Concrete fixtures -/

def demoTokens : OAuthTokens :=
  { accessToken := "tok", refreshToken := none, expiresAt := none }

/-- A fully armed in-flight session awaiting its callback on port 21300 with
CSRF state "abc123". -/
def demoSession : OAuthState :=
  { server := some 21300, port := some 21300,
    pkce := some { verifier := "ver", challenge := "chal" },
    state := some "abc123", resolveCallback := true, rejectCallback := true,
    timeoutId := some 7 }

/-- A token endpoint that accepts every exchange. -/
def demoExchangeOk : ExchangeCall → Except String OAuthTokens :=
  fun _ => Except.ok demoTokens

/-! ## Theorems -/

/-- Supporting lemma: no branch of handleCallback ever delivers a settlement,
because every branch runs cleanup() before reading the resolver/rejecter
from the shared record. -/
theorem handleCallback_settles_nil (s : OAuthState) (q : CallbackQuery)
    (ex : ExchangeCall → Except String OAuthTokens) :
    (handleCallback s q ex).settles = [] := by
  unfold handleCallback
  split
  · rfl
  · split
    · rfl
    · split
      · rfl
      · dsimp only
        split <;> rfl

/-- C1: a callback with the correct CSRF state and a successful token
exchange renders the success page and performs the exchange, but delivers no
settlement at all: cleanup() nulls resolveCallback before the handler reads
it, so the in-flight promise is never resolved (the claim expects exactly one
resolution with the token set). -/
theorem c1_success_callback_never_settled :
    handleCallback demoSession
      { code := some "authcode", state := some "abc123",
        error := none, errorDescription := none }
      demoExchangeOk =
    { branch := CallbackBranch.exchangeSuccess,
      response := PageResponse.successPage,
      exchangeCalls := [{ code := "authcode",
                          redirectUri := "http://localhost:21300/callback",
                          codeVerifier := "ver" }],
      settles := [],
      final := cleanupState } := by decide

/-- C2: a callback whose state does not match the session's csrfState renders
the CSRF failure page and never invokes the token exchange, but the session
is not failed either: the rejection read happens after cleanup() nulled
rejectCallback, so no settlement is delivered (the claim expects a rejection
with a CSRF validation error). -/
theorem c2_csrf_mismatch_no_exchange_no_settlement :
    handleCallback demoSession
      { code := some "authcode", state := some "wrong-value",
        error := none, errorDescription := none }
      demoExchangeOk =
    { branch := CallbackBranch.csrfMismatch,
      response := PageResponse.errorPage
        "Invalid state parameter - possible CSRF attack",
      exchangeCalls := [],
      settles := [],
      final := cleanupState } := by decide

/-- Counterexample to C6: the code returns false for a recorded expiresAt of
0, although 0 is a past timestamp and now + 5 minutes is at or past it, so
"true exactly when now plus the 5-minute buffer is at or past expiresAt"
fails at expiresAt = 0. -/
theorem c6_counterexample_expiresAt_zero :
    ¬ (isTokenExpired 1000000 (some 0) = true ↔
        1000000 + 5 * 60 * 1000 ≥ 0) := by decide

/-- C6 amended: isTokenExpired is false for an absent expiry and also for a
recorded expiry of exactly 0 (absorbed by the JS falsiness guard); for every
nonzero recorded expiry it is true exactly when now plus the fixed 5-minute
buffer is at or past the expiry. -/
theorem c6_isTokenExpired_amended (now e : Nat) :
    isTokenExpired now none = false ∧
    isTokenExpired now (some 0) = false ∧
    (0 < e → (isTokenExpired now (some e) = true ↔ now + 5 * 60 * 1000 ≥ e)) := by
  refine ⟨rfl, rfl, fun he => ?_⟩
  simp only [isTokenExpired]
  rw [if_neg (by omega)]
  exact ⟨fun h => of_decide_eq_true h, fun h => decide_eq_true h⟩

/-- C6 amended witness at now = 10, expiry 5 (a past nonzero timestamp). -/
theorem c6_isTokenExpired_amended_witness :
    0 < 5 ∧ (isTokenExpired 10 (some 5) = true ↔ 10 + 5 * 60 * 1000 ≥ 5) :=
  ⟨by decide, (c6_isTokenExpired_amended 10 5).2.2 (by decide)⟩

/-- Counterexample to C8: the authorization-code exchange sends the
configured OAUTH_CLIENT_ID as client_id while the refresh request sends the
hardcoded literal "claude-desktop"; the two client_id form fields differ. -/
theorem c8_counterexample_client_ids_differ :
    (exchangeAuthorizationCodeBody "c" "u" "v").lookup "client_id" =
      some OAUTH_CLIENT_ID ∧
    (refreshOAuthTokenBody "r").lookup "client_id" = some "claude-desktop" ∧
    OAUTH_CLIENT_ID ≠ "claude-desktop" := by decide

/-- C8 amended: for every input, the code exchange's client_id field is the
configured OAUTH_CLIENT_ID and the refresh request's client_id field is the
literal "claude-desktop", which is a different identifier. -/
theorem c8_client_id_fields (code uri ver rt : String) :
    (exchangeAuthorizationCodeBody code uri ver).lookup "client_id" =
      some OAUTH_CLIENT_ID ∧
    (refreshOAuthTokenBody rt).lookup "client_id" = some "claude-desktop" ∧
    OAUTH_CLIENT_ID ≠ "claude-desktop" := by
  refine ⟨?_, ?_, by decide⟩ <;> rfl

/-- C10: a callback whose code is non-empty but starts with the '#' character
passes the missing-code check (any non-empty string is truthy), has
everything from the first '#' stripped, and reaches the token exchange with
the empty string as the authorization code. -/
theorem c10_hash_prefixed_code_reaches_exchange
    (s : OAuthState) (q : CallbackQuery)
    (ex : ExchangeCall → Except String OAuthTokens)
    (st c : String) (r : List Char) (pk : PKCEChallenge) (p : Nat)
    (herr : q.error = none) (hqs : q.state = some st) (hst : st ≠ "")
    (hss : s.state = some st) (hqc : q.code = some c)
    (hc : c.toList = Char.ofNat 35 :: r)
    (hpk : s.pkce = some pk) (hport : s.port = some p) (hp : p ≠ 0) :
    (handleCallback s q ex).branch ≠ CallbackBranch.missingCode ∧
    (handleCallback s q ex).exchangeCalls =
      [{ code := "", redirectUri := redirectUriFor p,
         codeVerifier := pk.verifier }] := by
  have hcne : ¬ c = "" := by
    intro h
    rw [h] at hc
    exact List.noConfusion hc
  have htr : truthy q.error = false := by rw [herr]; rfl
  have hsv : stateInvalid q.state s.state = false := by
    rw [hqs, hss]
    simp [stateInvalid, hst]
  have hcode : truthy q.code = true := by
    rw [hqc]
    simp [truthy, hcne]
  have hext : extractAuthCode c = "" := by
    unfold extractAuthCode
    rw [if_pos]
    · rw [hc]
      simp [List.takeWhile]
    · rw [hc]
      simp [List.contains]
  unfold handleCallback
  rw [htr, hsv, hcode, hqc]
  simp only [Bool.false_eq_true, Bool.true_eq_false, if_false, Option.getD_some]
  rw [hext]
  unfold exchangeCodeForTokens
  rw [hpk, hport]
  dsimp only
  rw [if_neg hp]
  cases hex : ex (⟨"", redirectUriFor p, pk.verifier⟩ : ExchangeCall) <;> simp

/-- C10 witness: the armed demo session receiving code "#frag" with the
correct state reaches the exchange with the empty code. -/
theorem c10_hash_prefixed_code_reaches_exchange_witness :
    (handleCallback demoSession
      { code := some "#frag", state := some "abc123",
        error := none, errorDescription := none }
      demoExchangeOk).branch ≠ CallbackBranch.missingCode ∧
    (handleCallback demoSession
      { code := some "#frag", state := some "abc123",
        error := none, errorDescription := none }
      demoExchangeOk).exchangeCalls =
      [{ code := "", redirectUri := redirectUriFor 21300,
         codeVerifier := "ver" }] :=
  c10_hash_prefixed_code_reaches_exchange demoSession
    { code := some "#frag", state := some "abc123",
      error := none, errorDescription := none }
    demoExchangeOk "abc123" "#frag"
    [Char.ofNat 102, Char.ofNat 114, Char.ofNat 97, Char.ofNat 103]
    { verifier := "ver", challenge := "chal" } 21300
    rfl rfl (by decide) rfl rfl (by decide) rfl rfl (by decide)

/-! ## Base64 round-trip -/

/-- Decoding a base64 alphabet character recovers its sextet. -/
theorem base64CharVal_base64Char : ∀ n, n < 64 → base64CharVal (base64Char n) = n := by decide

/-- No base64 alphabet character is the '=' padding character. -/
theorem base64Char_ne_padChar : ∀ n, n < 64 → base64Char n ≠ padChar := by decide

/-- Buffer.from(Buffer.from(bytes).toString("base64"), "base64") recovers the
bytes. -/
theorem base64DecodeCore_encodeCore :
    ∀ (l : List Nat), (∀ b ∈ l, b < 256) →
      base64DecodeCore (base64EncodeCore l) = l
  | [], _ => rfl
  | [b1], h => by
      have hb1 : b1 < 256 := h b1 (by simp)
      have e1 : base64CharVal (base64Char (b1 / 4)) = b1 / 4 :=
        base64CharVal_base64Char _ (by omega)
      have e2 : base64CharVal (base64Char ((b1 % 4) * 16)) = (b1 % 4) * 16 :=
        base64CharVal_base64Char _ (by omega)
      simp only [base64EncodeCore, base64DecodeCore, e1, e2, if_pos]
      simp only [List.cons.injEq, and_true]
      omega
  | [b1, b2], h => by
      have hb1 : b1 < 256 := h b1 (by simp)
      have hb2 : b2 < 256 := h b2 (by simp)
      have e1 : base64CharVal (base64Char (b1 / 4)) = b1 / 4 :=
        base64CharVal_base64Char _ (by omega)
      have e2 : base64CharVal (base64Char ((b1 % 4) * 16 + b2 / 16)) =
          (b1 % 4) * 16 + b2 / 16 :=
        base64CharVal_base64Char _ (by omega)
      have e3 : base64CharVal (base64Char ((b2 % 16) * 4)) = (b2 % 16) * 4 :=
        base64CharVal_base64Char _ (by omega)
      have n3 : base64Char ((b2 % 16) * 4) ≠ padChar :=
        base64Char_ne_padChar _ (by omega)
      simp only [base64EncodeCore, base64DecodeCore, e1, e2, e3,
        if_neg n3, if_pos]
      simp only [List.cons.injEq, and_true]
      constructor
      · omega
      · omega
  | b1 :: b2 :: b3 :: rest, h => by
      have hb1 : b1 < 256 := h b1 (by simp)
      have hb2 : b2 < 256 := h b2 (by simp)
      have hb3 : b3 < 256 := h b3 (by simp)
      have ih : base64DecodeCore (base64EncodeCore rest) = rest :=
        base64DecodeCore_encodeCore rest
          (fun b hb => h b (by simp at hb ⊢; tauto))
      have e1 : base64CharVal (base64Char (b1 / 4)) = b1 / 4 :=
        base64CharVal_base64Char _ (by omega)
      have e2 : base64CharVal (base64Char ((b1 % 4) * 16 + b2 / 16)) =
          (b1 % 4) * 16 + b2 / 16 :=
        base64CharVal_base64Char _ (by omega)
      have e3 : base64CharVal (base64Char ((b2 % 16) * 4 + b3 / 64)) =
          (b2 % 16) * 4 + b3 / 64 :=
        base64CharVal_base64Char _ (by omega)
      have e4 : base64CharVal (base64Char (b3 % 64)) = b3 % 64 :=
        base64CharVal_base64Char _ (by omega)
      have n3 : base64Char ((b2 % 16) * 4 + b3 / 64) ≠ padChar :=
        base64Char_ne_padChar _ (by omega)
      have n4 : base64Char (b3 % 64) ≠ padChar :=
        base64Char_ne_padChar _ (by omega)
      simp only [base64EncodeCore, base64DecodeCore, e1, e2, e3, e4,
        if_neg n3, if_neg n4, ih]
      simp only [List.cons.injEq, and_true]
      refine ⟨by omega, by omega, by omega⟩
termination_by l => l.length
/-- Encoding a non-empty byte list yields a non-empty string. -/
theorem base64Encode_ne_empty (l : List Nat) (h : l ≠ []) :
    base64Encode l ≠ "" := by
  intro hcontra
  have hdata : base64EncodeCore l = [] := congrArg String.data hcontra
  match l, h with
  | [b1], _ => exact absurd hdata (by simp [base64EncodeCore])
  | [b1, b2], _ => exact absurd hdata (by simp [base64EncodeCore])
  | b1 :: b2 :: b3 :: rest, _ => exact absurd hdata (by simp [base64EncodeCore])

/-- The stored string of encryptToken is non-empty whenever the byte list it
encodes is. -/
theorem encryptToken_ne_empty (encAvail : Bool) (encS : List Nat → List Nat)
    (token : List Nat)
    (hne : (if encAvail then encS token else token) ≠ []) :
    encryptToken encAvail encS token ≠ "" := by
  cases encAvail with
  | false =>
      simp only [Bool.false_eq_true, if_false] at hne
      unfold encryptToken
      simpa using base64Encode_ne_empty token hne
  | true =>
      simp only [if_true] at hne
      unfold encryptToken
      simpa using base64Encode_ne_empty (encS token) hne

/-- decryptToken inverts encryptToken under a consistent availability flag,
given that safeStorage decryption inverts encryption on this token. -/
theorem decryptToken_encryptToken (encAvail : Bool)
    (encS decS : List Nat → List Nat) (token : List Nat)
    (hinv : decS (encS token) = token)
    (hbytes : ∀ b ∈ (if encAvail then encS token else token), b < 256) :
    decryptToken encAvail decS (encryptToken encAvail encS token) = token := by
  cases encAvail with
  | false =>
      simp only [Bool.false_eq_true, if_false] at hbytes
      unfold encryptToken decryptToken
      simp only [if_pos rfl]
      exact base64DecodeCore_encodeCore token hbytes
  | true =>
      simp only [if_true] at hbytes
      unfold encryptToken decryptToken
      simp only [Bool.true_eq_false, if_false]
      rw [show base64Decode (base64Encode (encS token)) = encS token from
        base64DecodeCore_encodeCore (encS token) hbytes, hinv]

/-- Delete-then-insert leaves exactly the inserted record under the fixed
identity. -/
theorem selectDefault_delete_insert (db : List StoredCredentialRecord)
    (rec : StoredCredentialRecord) (h : rec.id = "default") :
    selectDefault (deleteDefault db ++ [rec]) = some rec := by
  unfold selectDefault deleteDefault
  rw [List.find?_append]
  have hnone : (db.filter fun r => r.id ≠ "default").find?
      (fun r => decide (r.id = "default")) = none := by
    rw [List.find?_eq_none]
    intro x hx
    have hmem := (List.mem_filter.mp hx).2
    simp only [decide_eq_true_eq] at hmem ⊢
    simpa using hmem
  rw [hnone]
  simp [List.find?, h]

/-- Counterexample to C7: persisting the empty token through the base64
fallback stores the empty string, which getToken's falsiness check treats as
not connected, so retrieval yields null rather than the empty token. -/
theorem c7_counterexample_empty_token :
    getToken false (fun l => l)
      (storeOAuthToken false (fun l => l) 0 [] []) = none ∧
    getToken false (fun l => l)
      (storeOAuthToken false (fun l => l) 0 [] []) ≠ some [] := by decide

/-- C7 amended: whenever the stored form is non-empty (every non-empty token
under the fallback, and every token whose safeStorage ciphertext is
non-empty), persisting with encrypt and delete-then-insert followed by
select-and-decrypt returns the identical token, for either availability of
the safeStorage primitive used consistently by both operations.  decS
abstracts safeStorage.decryptString and is assumed to invert
safeStorage.encryptString (encS) on this token. -/
theorem c7_persist_retrieve_roundtrip
    (encAvail : Bool) (encS decS : List Nat → List Nat)
    (token : List Nat) (db : List StoredCredentialRecord) (now : Nat)
    (hinv : decS (encS token) = token)
    (hbytes : ∀ b ∈ (if encAvail then encS token else token), b < 256)
    (hne : (if encAvail then encS token else token) ≠ []) :
    getToken encAvail decS (storeOAuthToken encAvail encS now db token) =
      some token := by
  unfold storeOAuthToken getToken
  rw [selectDefault_delete_insert db _ rfl]
  dsimp only
  rw [if_neg (encryptToken_ne_empty encAvail encS token hne),
      decryptToken_encryptToken encAvail encS decS token hinv hbytes]

/-- C7 witness: the two-byte token [104, 105] round-trips with safeStorage
modelled as the identity cipher. -/
theorem c7_persist_retrieve_roundtrip_witness :
    getToken true (fun l => l)
      (storeOAuthToken true (fun l => l) 0 [] [104, 105]) = some [104, 105] :=
  c7_persist_retrieve_roundtrip true (fun l => l) (fun l => l) [104, 105] [] 0
    rfl (by decide) (by decide)

/-- Length of the unpadded base64url encoding. -/
theorem base64UrlEncodeCore_length : ∀ l : List Nat,
    (base64UrlEncodeCore l).length =
      (l.length / 3) * 4 + (if l.length % 3 = 0 then 0 else l.length % 3 + 1)
  | [] => rfl
  | [b1] => by simp [base64UrlEncodeCore]
  | [b1, b2] => by simp [base64UrlEncodeCore]
  | b1 :: b2 :: b3 :: rest => by
      have ih := base64UrlEncodeCore_length rest
      simp only [base64UrlEncodeCore, List.length_cons, ih]
      by_cases h3 : rest.length % 3 = 0
      · rw [if_pos h3, if_pos (by omega)]
        omega
      · rw [if_neg h3, if_neg (by omega)]
        omega
termination_by l => l.length

/-- Counterexample to C4: for the all-zero 32-byte random value, the
challenge the code computes (SHA-256 of the verifier string's own
characters, per RFC 7636) differs from base64url(SHA-256(raw 32 bytes)) as
the claim states it. -/
theorem c4_counterexample_challenge_hashes_string :
    ¬ ((generatePKCE (List.replicate 32 0)).challenge =
        base64UrlEncode (sha256 (List.replicate 32 0))) := by decide

/-- C4 amended: for every 32-byte random value, the verifier is its base64url
encoding (43 characters, so more than 256 bits), and the challenge is the
base64url encoding of the SHA-256 digest of the verifier string's own bytes
(its ASCII characters), not of the decoded raw bytes. -/
theorem c4_generatePKCE_amended (rnd : List Nat) (h : rnd.length = 32) :
    (generatePKCE rnd).verifier = base64UrlEncode rnd ∧
    (generatePKCE rnd).verifier.length = 43 ∧
    (generatePKCE rnd).challenge =
      base64UrlEncode (sha256 (strBytes (generatePKCE rnd).verifier)) := by
  refine ⟨rfl, ?_, rfl⟩
  show (base64UrlEncodeCore rnd).length = 43
  rw [base64UrlEncodeCore_length rnd, h]
  decide

/-- C4 amended witness at the all-zero 32-byte value. -/
theorem c4_generatePKCE_amended_witness :
    (List.replicate 32 0).length = 32 ∧
    ((generatePKCE (List.replicate 32 0)).verifier =
        base64UrlEncode (List.replicate 32 0) ∧
      (generatePKCE (List.replicate 32 0)).verifier.length = 43 ∧
      (generatePKCE (List.replicate 32 0)).challenge =
        base64UrlEncode (sha256 (strBytes
          (generatePKCE (List.replicate 32 0)).verifier))) :=
  ⟨by decide, c4_generatePKCE_amended (List.replicate 32 0) (by decide)⟩

/-- The probing loop returns some p exactly for the first available port at
or after start within fuel. -/
theorem findAvailablePortGo_some_iff (avail : Nat → Bool) :
    ∀ (fuel start p : Nat),
      (findAvailablePortGo avail start fuel = some p ↔
        (start ≤ p ∧ p < start + fuel ∧ avail p = true ∧
          ∀ q, start ≤ q → q < p → avail q = false))
  | 0, start, p => by
      constructor
      · intro h
        simp [findAvailablePortGo] at h
      · rintro ⟨h1, h2, -, -⟩
        exact absurd h2 (by omega)
  | fuel + 1, start, p => by
      have ih := findAvailablePortGo_some_iff avail fuel (start + 1) p
      simp only [findAvailablePortGo]
      by_cases ha : avail start = true
      · rw [if_pos ha]
        constructor
        · intro h
          injection h with h
          subst h
          exact ⟨Nat.le_refl _, by omega, ha,
            fun q hq hq' => absurd hq (by omega)⟩
        · rintro ⟨h1, h2, hp, hmin⟩
          by_cases hps : p = start
          · rw [hps]
          · have hfalse : avail start = false :=
              hmin start (Nat.le_refl _) (by omega)
            rw [ha] at hfalse
            exact Bool.noConfusion hfalse
      · rw [if_neg ha]
        have ha' : avail start = false := by
          cases hh : avail start with
          | false => rfl
          | true => exact absurd hh ha
        rw [ih]
        constructor
        · rintro ⟨h1, h2, hp, hmin⟩
          refine ⟨by omega, by omega, hp, fun q hq hq' => ?_⟩
          by_cases hqs : q = start
          · rw [hqs]
            exact ha'
          · exact hmin q (by omega) hq'
        · rintro ⟨h1, h2, hp, hmin⟩
          have hps : p ≠ start := fun hc => by
            rw [hc] at hp
            rw [hp] at ha'
            exact Bool.noConfusion ha'
          exact ⟨by omega, by omega, hp, fun q hq hq' => hmin q (by omega) hq'⟩

/-- The probing loop returns none exactly when no port in the range is
available. -/
theorem findAvailablePortGo_none_iff (avail : Nat → Bool) :
    ∀ (fuel start : Nat),
      (findAvailablePortGo avail start fuel = none ↔
        ∀ p, start ≤ p → p < start + fuel → avail p = false)
  | 0, start => by
      simp only [findAvailablePortGo, true_iff]
      intro p h1 h2
      exact absurd h2 (by omega)
  | fuel + 1, start => by
      have ih := findAvailablePortGo_none_iff avail fuel (start + 1)
      simp only [findAvailablePortGo]
      by_cases ha : avail start = true
      · rw [if_pos ha]
        constructor
        · intro h
          exact Option.noConfusion h
        · intro hall
          have hfalse := hall start (Nat.le_refl _) (by omega)
          rw [ha] at hfalse
          exact Bool.noConfusion hfalse
      · rw [if_neg ha]
        have ha' : avail start = false := by
          cases hh : avail start with
          | false => rfl
          | true => exact absurd hh ha
        rw [ih]
        constructor
        · intro hall p h1 h2
          by_cases hps : p = start
          · rw [hps]
            exact ha'
          · exact hall p (by omega) (by omega)
        · intro hall p h1 h2
          exact hall p (by omega) (by omega)

/-- C5: findAvailablePort probes ports in ascending order and returns the
first port in [lo, hi] on which the transient loopback probe succeeds; it
fails (throws the no-available-ports error, modelled as none) exactly when
every port in the range fails to bind. -/
theorem c5_findAvailablePort_first_free (lo hi : Nat) (avail : Nat → Bool) :
    (∀ p, findAvailablePort lo hi avail = some p ↔
        (lo ≤ p ∧ p ≤ hi ∧ avail p = true ∧
          ∀ q, lo ≤ q → q < p → avail q = false)) ∧
    (findAvailablePort lo hi avail = none ↔
      ∀ p, lo ≤ p → p ≤ hi → avail p = false) := by
  constructor
  · intro p
    rw [show findAvailablePort lo hi avail =
          findAvailablePortGo avail lo (hi + 1 - lo) from rfl,
        findAvailablePortGo_some_iff]
    constructor
    · rintro ⟨h1, h2, h3, h4⟩
      exact ⟨h1, by omega, h3, h4⟩
    · rintro ⟨h1, h2, h3, h4⟩
      exact ⟨h1, by omega, h3, h4⟩
  · rw [show findAvailablePort lo hi avail =
          findAvailablePortGo avail lo (hi + 1 - lo) from rfl,
        findAvailablePortGo_none_iff]
    constructor
    · intro hall p h1 h2
      exact hall p h1 (by omega)
    · intro hall p h1 h2
      exact hall p h1 (by omega)

/-- A probe environment where ports below 21302 are taken. -/
def demoAvail : Nat → Bool := fun p => decide (21302 ≤ p)

/-- C5 witness: in the demo environment the configured range yields 21302,
the first free port. -/
theorem c5_findAvailablePort_first_free_witness :
    findAvailablePort 21300 21399 demoAvail = some 21302 :=
  ((c5_findAvailablePort_first_free 21300 21399 demoAvail).1 21302).mpr
    ⟨by decide, by decide, by decide,
     fun q h1 h2 => by
       simp only [demoAvail, decide_eq_false_iff_not]
       omega⟩

def isBoundEvent : FlowEvent → Bool
  | FlowEvent.bound _ => true
  | _ => false

/-- Every event the port-allocation loop emits is a probe. -/
theorem probeTrace_all_probed (avail : Nat → Bool) :
    ∀ (fuel start : Nat) (e : FlowEvent), e ∈ probeTrace avail start fuel →
      ∃ p b, e = FlowEvent.probed p b
  | 0, start, e, h => absurd h (by simp [probeTrace])
  | fuel + 1, start, e, h => by
      simp only [probeTrace] at h
      by_cases ha : avail start = true
      · rw [if_pos ha] at h
        simp only [List.mem_singleton] at h
        exact ⟨start, true, h⟩
      · rw [if_neg ha] at h
        rcases List.mem_cons.mp h with h | h
        · exact ⟨start, false, h⟩
        · exact probeTrace_all_probed avail fuel (start + 1) e h

/-- Per-call sequential property: one startOAuthFlow call runs the teardown
of the session recorded in the shared state first:
its event trace is the prior session's cleanup trace (which contains the
clearedTimer and closedServer actions whenever a timer/server existed)
followed by a remainder that contains no server-close, in which every bind is
of the freshly allocated port; at most one bind happens and the final state
owns at most the newly allocated listener. -/
theorem startOAuthFlow_teardown_before_bind (s : OAuthState)
    (avail : Nat → Bool) (pk : PKCEChallenge) (csrf : String) (tm : Nat) :
    ∃ rest,
      (startOAuthFlow s avail pk csrf tm).events = cleanupTrace s ++ rest ∧
      (∀ p, s.server = some p → FlowEvent.closedServer p ∈ cleanupTrace s) ∧
      (∀ t, s.timeoutId = some t → FlowEvent.clearedTimer t ∈ cleanupTrace s) ∧
      (∀ p, FlowEvent.closedServer p ∉ rest) ∧
      (∀ p, FlowEvent.bound p ∉ cleanupTrace s) ∧
      (∀ p, FlowEvent.bound p ∈ rest →
        findAvailablePort OAUTH_PORT_MIN OAUTH_PORT_MAX avail = some p) ∧
      rest.countP isBoundEvent ≤ 1 ∧
      (startOAuthFlow s avail pk csrf tm).final.server =
        findAvailablePort OAUTH_PORT_MIN OAUTH_PORT_MAX avail := by
  have hclosed : ∀ p, s.server = some p →
      FlowEvent.closedServer p ∈ cleanupTrace s := by
    intro p hp
    unfold cleanupTrace
    rw [hp]
    cases s.timeoutId <;> simp
  have htimer : ∀ t, s.timeoutId = some t →
      FlowEvent.clearedTimer t ∈ cleanupTrace s := by
    intro t ht
    unfold cleanupTrace
    rw [ht]
    cases s.server <;> simp
  have hnobound : ∀ p, FlowEvent.bound p ∉ cleanupTrace s := by
    intro p
    unfold cleanupTrace
    cases s.timeoutId <;> cases s.server <;> simp
  have hprobedc : ∀ p,
      FlowEvent.closedServer p ∉
        probeTrace avail OAUTH_PORT_MIN (OAUTH_PORT_MAX + 1 - OAUTH_PORT_MIN) := by
    intro p hmem
    rcases probeTrace_all_probed avail _ _ _ hmem with ⟨q, b, h⟩
    exact FlowEvent.noConfusion h
  have hprobedb : ∀ p,
      FlowEvent.bound p ∉
        probeTrace avail OAUTH_PORT_MIN (OAUTH_PORT_MAX + 1 - OAUTH_PORT_MIN) := by
    intro p hmem
    rcases probeTrace_all_probed avail _ _ _ hmem with ⟨q, b, h⟩
    exact FlowEvent.noConfusion h
  have hprobecount :
      (probeTrace avail OAUTH_PORT_MIN
        (OAUTH_PORT_MAX + 1 - OAUTH_PORT_MIN)).countP isBoundEvent = 0 := by
    rw [List.countP_eq_zero]
    intro e he
    rcases probeTrace_all_probed avail _ _ _ he with ⟨q, b, rfl⟩
    simp [isBoundEvent]
  cases hfp : findAvailablePort OAUTH_PORT_MIN OAUTH_PORT_MAX avail with
  | none =>
      have hflow : startOAuthFlow s avail pk csrf tm =
          { events := cleanupTrace s ++
              probeTrace avail OAUTH_PORT_MIN (OAUTH_PORT_MAX + 1 - OAUTH_PORT_MIN) ++
              [FlowEvent.settledReject (noPortsMessage OAUTH_PORT_MIN OAUTH_PORT_MAX)],
            final := cleanupState } := by
        unfold startOAuthFlow
        rw [hfp]
      refine ⟨probeTrace avail OAUTH_PORT_MIN (OAUTH_PORT_MAX + 1 - OAUTH_PORT_MIN) ++
        [FlowEvent.settledReject (noPortsMessage OAUTH_PORT_MIN OAUTH_PORT_MAX)],
        ?_, hclosed, htimer, ?_, hnobound, ?_, ?_, ?_⟩
      · rw [hflow]
        simp [List.append_assoc]
      · intro p hmem
        rcases List.mem_append.mp hmem with h | h
        · exact hprobedc p h
        · simp only [List.mem_singleton] at h
          exact FlowEvent.noConfusion h
      · intro p hmem
        rcases List.mem_append.mp hmem with h | h
        · exact absurd h (hprobedb p)
        · simp only [List.mem_singleton] at h
          exact FlowEvent.noConfusion h
      · rw [List.countP_append, hprobecount]
        simp [List.countP, List.countP.go, isBoundEvent]
      · rw [hflow]
        rfl
  | some port =>
      have hflow : startOAuthFlow s avail pk csrf tm =
          { events := cleanupTrace s ++
              probeTrace avail OAUTH_PORT_MIN (OAUTH_PORT_MAX + 1 - OAUTH_PORT_MIN) ++
              [FlowEvent.bound port, FlowEvent.timerArmed tm,
               FlowEvent.browserOpened],
            final := { server := some port, port := some port,
                       pkce := some pk, state := some csrf,
                       resolveCallback := true, rejectCallback := true,
                       timeoutId := some 1 } } := by
        unfold startOAuthFlow
        rw [hfp]
      refine ⟨probeTrace avail OAUTH_PORT_MIN (OAUTH_PORT_MAX + 1 - OAUTH_PORT_MIN) ++
        [FlowEvent.bound port, FlowEvent.timerArmed tm, FlowEvent.browserOpened],
        ?_, hclosed, htimer, ?_, hnobound, ?_, ?_, ?_⟩
      · rw [hflow]
        simp [List.append_assoc]
      · intro p hmem
        rcases List.mem_append.mp hmem with h | h
        · exact hprobedc p h
        · simp only [List.mem_cons, List.not_mem_nil, or_false] at h
          rcases h with h | h | h <;> exact FlowEvent.noConfusion h
      · intro p hmem
        rcases List.mem_append.mp hmem with h | h
        · exact absurd h (hprobedb p)
        · simp only [List.mem_cons, List.not_mem_nil, or_false] at h
          rcases h with h | h | h
          · injection h with h
            rw [h]
          · exact FlowEvent.noConfusion h
          · exact FlowEvent.noConfusion h
      · rw [List.countP_append, hprobecount]
        simp [List.countP, List.countP.go, isBoundEvent]
      · rw [hflow]

/-- Instance of the per-call property: a prior session with a bound server
and armed timer is torn down before the new flow binds, in a fully available
port range. -/
theorem startOAuthFlow_teardown_before_bind_instance :
    ∃ rest,
      (startOAuthFlow demoSession (fun _ => true)
        { verifier := "v2", challenge := "c2" } "newstate" 300000).events =
        cleanupTrace demoSession ++ rest ∧
      (∀ p, demoSession.server = some p →
        FlowEvent.closedServer p ∈ cleanupTrace demoSession) ∧
      (∀ t, demoSession.timeoutId = some t →
        FlowEvent.clearedTimer t ∈ cleanupTrace demoSession) ∧
      (∀ p, FlowEvent.closedServer p ∉ rest) ∧
      (∀ p, FlowEvent.bound p ∉ cleanupTrace demoSession) ∧
      (∀ p, FlowEvent.bound p ∈ rest →
        findAvailablePort OAUTH_PORT_MIN OAUTH_PORT_MAX (fun _ => true) = some p) ∧
      rest.countP isBoundEvent ≤ 1 ∧
      (startOAuthFlow demoSession (fun _ => true)
        { verifier := "v2", challenge := "c2" } "newstate" 300000).final.server =
        findAvailablePort OAUTH_PORT_MIN OAUTH_PORT_MAX (fun _ => true) :=
  startOAuthFlow_teardown_before_bind demoSession (fun _ => true)
    { verifier := "v2", challenge := "c2" } "newstate" 300000

/-- The macOS keychain reader yields null or a successfully parsed
credential. -/
theorem readFromMacOSKeychain_spec (env : CredEnv) :
    ParsedOrNone env (readFromMacOSKeychain env) := by
  unfold ParsedOrNone readFromMacOSKeychain
  cases hk : env.macKeychain with
  | error e => exact Or.inl rfl
  | ok raw =>
      dsimp only
      by_cases ht : raw.trim = ""
      · rw [if_pos ht]
        exact Or.inl rfl
      · rw [if_neg ht]
        cases hp : env.jsonParse raw.trim with
        | error e => exact Or.inl rfl
        | ok credentials =>
            cases hc : credentials.claudeAiOauth with
            | none => exact Or.inl hc
            | some c => exact Or.inr ⟨c, raw.trim, credentials, hc, hp, hc⟩

/-- The Windows credential-file reader yields null or a successfully parsed
credential. -/
theorem readFromWindowsCredentialManager_spec (env : CredEnv) :
    ParsedOrNone env (readFromWindowsCredentialManager env) := by
  unfold ParsedOrNone readFromWindowsCredentialManager
  by_cases hex : env.credFileExists = true
  · rw [if_pos hex]
    cases hr : env.credFileRead with
    | error e => exact Or.inl rfl
    | ok content =>
        dsimp only
        cases hp : env.jsonParse content with
        | error e => exact Or.inl rfl
        | ok credentials =>
            dsimp only
            cases hc : credentials.claudeAiOauth with
            | none => exact Or.inl rfl
            | some c => exact Or.inr ⟨c, content, credentials, rfl, hp, hc⟩
  · rw [if_neg hex]
    exact Or.inl rfl

/-- The Linux secret-service reader (secret-tool, then pass) yields null or a
successfully parsed credential. -/
theorem readFromLinuxSecretService_spec (env : CredEnv) :
    ParsedOrNone env (readFromLinuxSecretService env) := by
  have hpass : ParsedOrNone env
      (match env.passStore with
       | Except.error _ => none
       | Except.ok raw =>
           if raw.trim = "" then none
           else
             match env.jsonParse raw.trim with
             | Except.error _ => none
             | Except.ok credentials => credentials.claudeAiOauth) := by
    unfold ParsedOrNone
    cases hk : env.passStore with
    | error e => exact Or.inl rfl
    | ok raw =>
        dsimp only
        by_cases ht : raw.trim = ""
        · rw [if_pos ht]
          exact Or.inl rfl
        · rw [if_neg ht]
          cases hp : env.jsonParse raw.trim with
          | error e => exact Or.inl rfl
          | ok credentials =>
              cases hc : credentials.claudeAiOauth with
              | none => exact Or.inl hc
              | some c => exact Or.inr ⟨c, raw.trim, credentials, hc, hp, hc⟩
  unfold ParsedOrNone readFromLinuxSecretService
  cases hk : env.secretTool with
  | error e => exact hpass
  | ok raw =>
      dsimp only
      by_cases ht : raw.trim = ""
      · rw [if_pos ht]
        exact hpass
      · rw [if_neg ht]
        cases hp : env.jsonParse raw.trim with
        | error e => exact hpass
        | ok credentials =>
            dsimp only
            cases hc : credentials.claudeAiOauth with
            | none =>
                dsimp only
                exact hpass
            | some c =>
                dsimp only
                exact Or.inr ⟨c, raw.trim, credentials, rfl, hp, hc⟩

/-- The platform dispatcher yields null or a successfully parsed
credential. -/
theorem readFromKeychain_spec (env : CredEnv) :
    ParsedOrNone env (readFromKeychain env) := by
  unfold readFromKeychain
  cases env.platform
  exacts [readFromMacOSKeychain_spec env,
    readFromWindowsCredentialManager_spec env,
    readFromLinuxSecretService_spec env, Or.inl rfl]

/-- The credentials-file fallback yields null or a successfully parsed
credential. -/
theorem readFromCredentialsFile_spec (env : CredEnv) :
    ParsedOrNone env (readFromCredentialsFile env) := by
  unfold ParsedOrNone readFromCredentialsFile
  by_cases hex : env.credFileExists = true
  · rw [if_pos hex]
    cases hr : env.credFileRead with
    | error e => exact Or.inl rfl
    | ok content =>
        dsimp only
        cases hp : env.jsonParse content with
        | error e => exact Or.inl rfl
        | ok credentials =>
            dsimp only
            cases hc : credentials.claudeAiOauth with
            | none => exact Or.inl rfl
            | some c => exact Or.inr ⟨c, content, credentials, rfl, hp, hc⟩
  · rw [if_neg hex]
    exact Or.inl rfl

/-- C9: for every outcome of the platform-specific secret lookups, the JSON
parses and the credentials-file fallback (entry absent, command failure, I/O
error, parse error), getExistingClaudeCredentials is defined and returns
either null or a credential extracted from a string the JSON parser accepted;
every failing primitive is absorbed by a catch into the null outcome, so the
resolver never throws. -/
theorem c9_getExistingClaudeCredentials_total (env : CredEnv) :
    ParsedOrNone env (getExistingClaudeCredentials env) := by
  unfold getExistingClaudeCredentials
  cases hk : readFromKeychain env with
  | none => exact readFromCredentialsFile_spec env
  | some c =>
      have hspec := readFromKeychain_spec env
      unfold ParsedOrNone at hspec
      rw [hk] at hspec
      rcases hspec with h | ⟨c', s', creds', hcc, hp, hc⟩
      · exact Option.noConfusion h
      · injection hcc with hcc
        rw [← hcc] at hc
        exact Or.inr ⟨c, s', creds', rfl, hp, hc⟩

/-! ## Overlapping startOAuthFlow calls -/

/-- Process-level state for overlapping startOAuthFlow calls: the shared
module-level oauthState record together with the ports that currently hold a
live (bound and not yet closed) listener, which the shared record does not
track once it is overwritten. -/
structure ProcState where
  shared : OAuthState
  listeners : List Nat
deriving DecidableEq, Repr

/-- The synchronous prefix of one startOAuthFlow call, up to its first await:
cleanup() clears the timer and closes exactly the server recorded in the
shared record, and the call then suspends awaiting the port probe. -/
def startPhase1 (p : ProcState) : ProcState :=
  { shared := cleanupState,
    listeners :=
      match p.shared.server with
      | some q => p.listeners.erase q
      | none => p.listeners }

/-- The synchronous segment that runs when the call's port probe resolves
with port: install the new session in the shared record (overwriting
whatever another call put there) and bind the listener. -/
def startPhase2 (p : ProcState) (pk : PKCEChallenge) (csrf : String)
    (port : Nat) : ProcState :=
  { shared := { server := some port, port := some port, pkce := some pk,
                state := some csrf, resolveCallback := true,
                rejectCallback := true, timeoutId := some 1 },
    listeners := p.listeners ++ [port] }

/-- checkPortAvailable against the live listeners: a port binds without
error exactly when no listener currently holds it. -/
def availFrom (p : ProcState) : Nat → Bool :=
  fun q => decide (q ∉ p.listeners)

/-- One legal event-loop schedule of two overlapping calls A and B:
A's synchronous prefix, then B's (its guard and cleanup see no server),
then A's probe resolves and A binds, then B's probe resolves and B binds. -/
def raceP0 : ProcState := { shared := cleanupState, listeners := [] }

def raceP1 : ProcState := startPhase1 raceP0

def raceP2 : ProcState := startPhase1 raceP1

def racePortA : Option Nat :=
  findAvailablePort OAUTH_PORT_MIN OAUTH_PORT_MAX (availFrom raceP2)

def raceP3 : ProcState :=
  startPhase2 raceP2 { verifier := "verA", challenge := "chalA" } "stateA"
    (racePortA.getD 0)

def racePortB : Option Nat :=
  findAvailablePort OAUTH_PORT_MIN OAUTH_PORT_MAX (availFrom raceP3)

def raceP4 : ProcState :=
  startPhase2 raceP3 { verifier := "verB", challenge := "chalB" } "stateB"
    (racePortB.getD 0)

/-- C3: two overlapping startOAuthFlow calls end with two concurrently bound
listeners.  After call A's synchronous prefix the shared record holds no
server, so call B passes the isOAuthFlowInProgress guard and its cleanup()
tears nothing down; A's probe then yields 21300 and A binds it; B's probe
yields 21301 (21300 is now taken) and B binds it, overwriting the shared
record - A's listener on 21300 is orphaned and never closed, violating the
claimed process-wide single-listener invariant even though each call ran its
teardown before allocating and binding. -/
theorem c3_overlapping_starts_two_listeners :
    isOAuthFlowInProgress raceP1.shared = false ∧
    racePortA = some 21300 ∧
    racePortB = some 21301 ∧
    raceP4.listeners = [21300, 21301] ∧
    raceP4.shared.server = some 21301 := by decide
